/-
  Verification of the bidsphysio repository against its specification.

  The development shallowly embeds the relevant parts of the sources:
  * bidsphysio.edf2bids/bidsphysio/edf2bids/edf2bidsphysio.py (present in the
    repository) is embedded directly from the code;
  * bidsphysio/pmu2bidsphysio.py and bidsphysio/bidsphysio.py are not part of
    the available sources (only their test files are), so the functions they
    define are modelled from the specification, as indicated in the doc
    comments of the corresponding definitions.

  Real numbers of the Python code are embedded as rationals, NaN as `none` in
  `Option ℚ`, and fallible code returns `Option` or `Except`.
-/
import Mathlib

namespace Bidsphysio

/-! ### Generic helpers: first index satisfying a predicate -/

/-- First index of `l` whose element satisfies `p` (`none` if there is none).
Used to embed Python loops that break at the first match and numpy
`argmax` over boolean arrays. -/
def firstIdxP {α : Type} (p : α → Bool) : List α → Option ℕ
  | [] => none
  | x :: xs => if p x then some 0 else (firstIdxP p xs).map (· + 1)

theorem firstIdxP_eq_none_iff {α : Type} (p : α → Bool) (l : List α) :
    firstIdxP p l = none ↔ ∀ x ∈ l, p x = false := by
  induction l with
  | nil => simp [firstIdxP]
  | cons x xs ih =>
    by_cases hx : p x
    · simp [firstIdxP, hx]
    · rw [show firstIdxP p (x :: xs) = if p x then some 0 else (firstIdxP p xs).map (· + 1) from rfl,
        if_neg hx]
      simp only [List.mem_cons, Option.map_eq_none']
      constructor
      · intro h y hy
        rcases hy with rfl | hy
        · simpa using hx
        · exact (ih.mp h) y hy
      · intro h
        exact ih.mpr fun y hy => h y (Or.inr hy)

theorem firstIdxP_eq_some_iff {α : Type} (p : α → Bool) (l : List α) (i : ℕ) :
    firstIdxP p l = some i ↔
      ∃ h : i < l.length, p (l.get ⟨i, h⟩) = true ∧
        ∀ j (hj : j < i), p (l.get ⟨j, Nat.lt_trans hj h⟩) = false := by
  induction l generalizing i with
  | nil => simp [firstIdxP]
  | cons x xs ih =>
    by_cases hx : p x
    · rw [show firstIdxP p (x :: xs) = if p x then some 0 else (firstIdxP p xs).map (· + 1) from rfl,
        if_pos hx]
      constructor
      · rintro h
        injection h with h
        subst h
        refine ⟨by simp, by simpa using hx, ?_⟩
        intro j hj
        exact absurd hj (Nat.not_lt_zero j)
      · rintro ⟨h, hp, hmin⟩
        cases i with
        | zero => rfl
        | succ i =>
          have := hmin 0 (Nat.succ_pos i)
          simp only [List.get] at this
          rw [hx] at this
          exact absurd this (by simp)
    · rw [show firstIdxP p (x :: xs) = if p x then some 0 else (firstIdxP p xs).map (· + 1) from rfl,
        if_neg hx]
      constructor
      · intro h
        rcases Option.map_eq_some'.mp h with ⟨i', hi', rfl⟩
        rcases (ih i').mp hi' with ⟨hlen, hp, hmin⟩
        refine ⟨by simpa using Nat.succ_lt_succ hlen, by simpa using hp, ?_⟩
        intro j hj
        cases j with
        | zero => simpa using hx
        | succ j =>
          have hj' : j < i' := Nat.lt_of_succ_lt_succ hj
          simpa using hmin j hj'
      · rintro ⟨hlen, hp, hmin⟩
        cases i with
        | zero =>
          simp only [List.get] at hp
          exact absurd hp hx
        | succ i =>
          have hlen' : i < xs.length := Nat.lt_of_succ_lt_succ hlen
          have : firstIdxP p xs = some i := by
            refine (ih i).mpr ⟨hlen', by simpa using hp, ?_⟩
            intro j hj
            have := hmin (j + 1) (Nat.succ_lt_succ hj)
            simpa using this
          rw [this]
          rfl

/-! ### String helpers embedding Python primitives -/

/-- Embeds Python list/string prefix testing on character lists. -/
def chStart : List Char → List Char → Bool
  | [], _ => true
  | _ :: _, [] => false
  | a :: as, b :: bs => decide (a = b) && chStart as bs

/-- Embeds the Python substring test `pat in s` (`str.__contains__`). -/
def chContains : List Char → List Char → Bool
  | [], pat => pat.isEmpty
  | h :: t, pat => chStart pat (h :: t) || chContains t pat

/-- Python `pat in s` on strings. -/
def strContains (s pat : String) : Bool :=
  chContains s.data pat.data

/-- Python `str.upper()` (restricted to the ASCII uppercasing used here). -/
def pyUpper (s : String) : String :=
  String.mk (s.data.map Char.toUpper)

/-- Accumulating splitter over the character list: `acc` holds the reversed
characters of the current field. -/
def pySplitChars : List Char → List Char → List String
  | [], acc => if acc.isEmpty then [] else [String.mk acc.reverse]
  | c :: cs, acc =>
    if c.isWhitespace then
      if acc.isEmpty then pySplitChars cs [] else String.mk acc.reverse :: pySplitChars cs []
    else pySplitChars cs (c :: acc)

/-- Python `str.split()` with no argument: split on whitespace runs,
discarding empty fields. -/
def pySplit (s : String) : List String :=
  pySplitChars s.data []

/-! ### `find_line_with_string` (edf2bidsphysio.py, lines 64-72)

Python:
```
def find_line_with_string(input_text, input_string):
    for line in range(len(input_text)):
        if input_string in input_text[line]:
            found_line = line
            break
        else:
            found_line = None
    return found_line
```
The loop state is the Python local `found_line`: `none` while unassigned
(reading it raises `UnboundLocalError`), `some none` once assigned `None`,
`some (some i)` once assigned a line index. -/

/-- One-to-one embedding of the `for` loop of `find_line_with_string`:
on a match the loop breaks returning the index; on a mismatch it assigns
`None` and continues; when the list is exhausted the current state stands. -/
def findLineLoop (pat : String) : List String → ℕ → Option (Option ℕ) → Option (Option ℕ)
  | [], _, st => st
  | l :: ls, i, _ =>
    if strContains l pat then some (some i) else findLineLoop pat ls (i + 1) (some none)

/-- Embeds `find_line_with_string`.  The outer `none` marks the
`UnboundLocalError` raised when the input list is empty and `found_line`
is returned without ever being assigned. -/
def find_line_with_string (input_text : List String) (input_string : String) :
    Option (Option ℕ) :=
  findLineLoop input_string input_text 0 none

theorem findLineLoop_characterization (pat : String) (ls : List String) (i : ℕ)
    (st : Option (Option ℕ)) :
    findLineLoop pat ls i st =
      match firstIdxP (fun l => strContains l pat) ls with
      | some j => some (some (i + j))
      | none => if ls.isEmpty then st else some none := by
  induction ls generalizing i st with
  | nil => simp [findLineLoop, firstIdxP]
  | cons l ls ih =>
    by_cases hl : strContains l pat
    · simp [findLineLoop, firstIdxP, hl]
    · simp only [findLineLoop, hl, if_false, ih, firstIdxP]
      cases hfi : firstIdxP (fun l => strContains l pat) ls with
      | some j =>
        simp only [hfi, Option.map_some']
        have : i + 1 + j = i + (j + 1) := by omega
        simp [this]
      | none =>
        simp only [hfi, Option.map_none']
        cases ls with
        | nil => simp
        | cons a as => simp

/-- Claim C10: for every non-empty list of message lines,
`find_line_with_string` returns the smallest index whose line contains the
given string, and returns Python `None` (here `some none`) when no line
contains it; for the empty list the Python local `found_line` is never
assigned, so the function fails with `UnboundLocalError` rather than
returning `None` (here the outer `none`). -/
theorem find_line_with_string_spec (input_text : List String) (input_string : String) :
    find_line_with_string [] input_string = none ∧
    (input_text ≠ [] →
      (∀ i, find_line_with_string input_text input_string = some (some i) ↔
          ∃ h : i < input_text.length,
            strContains (input_text.get ⟨i, h⟩) input_string = true ∧
            ∀ j (hj : j < i),
              strContains (input_text.get ⟨j, Nat.lt_trans hj h⟩) input_string = false) ∧
      (find_line_with_string input_text input_string = some none ↔
          ∀ line ∈ input_text, strContains line input_string = false)) := by
  constructor
  · rfl
  · intro hne
    have hchar := findLineLoop_characterization input_string input_text 0 none
    have hempty : input_text.isEmpty = false := by
      cases input_text with
      | nil => exact absurd rfl hne
      | cons a as => rfl
    constructor
    · intro i
      rw [find_line_with_string, hchar]
      cases hfi : firstIdxP (fun l => strContains l input_string) input_text with
      | some j =>
        simp only [Nat.zero_add]
        constructor
        · intro h
          injection h with h
          injection h with h
          subst h
          exact (firstIdxP_eq_some_iff _ _ _).mp hfi
        · intro h
          have := (firstIdxP_eq_some_iff (fun l => strContains l input_string) input_text i).mpr h
          rw [hfi] at this
          injection this with this
          rw [this]
      | none =>
        simp only [hempty, Bool.false_eq_true, if_false]
        constructor
        · intro h
          injection h with h
          exact absurd h (by simp)
        · intro h
          have := (firstIdxP_eq_some_iff (fun l => strContains l input_string) input_text i).mpr h
          rw [hfi] at this
          exact absurd this (by simp)
    · rw [find_line_with_string, hchar]
      cases hfi : firstIdxP (fun l => strContains l input_string) input_text with
      | some j =>
        simp only [Nat.zero_add]
        constructor
        · intro h
          injection h with h
          exact absurd h (by simp)
        · intro h
          have := (firstIdxP_eq_none_iff (fun l => strContains l input_string) input_text).mpr h
          rw [hfi] at this
          exact absurd this (by simp)
      | none =>
        simp only [hempty, Bool.false_eq_true, if_false, true_iff]
        exact (firstIdxP_eq_none_iff _ _).mp hfi

/-- Concrete instantiation of `find_line_with_string_spec`: in a three-line
message list whose second line first contains the pattern, the function
returns index 1. -/
theorem find_line_with_string_spec_witness :
    find_line_with_string ["abc", "a CALIBRATION x", "CALIBRATION y"] "CALIBRATION"
      = some (some 1) := by
  have h := (find_line_with_string_spec
    ["abc", "a CALIBRATION x", "CALIBRATION y"] "CALIBRATION").2 (by decide)
  exact (h.1 1).mpr ⟨by decide, by decide, by decide⟩

/-! ### `edf2bids` calibration handling (edf2bidsphysio.py, lines 116-133
and 276-311)

Python (abridged):
```
line_calibration = find_line_with_string(message, b"CALIBRATION (")
line_error = find_line_with_string(message, b"ERROR")
if (line_calibration is not None) and (line_error is not None):
    average_calibration_error = message[line_error].split()[7]...
    max_calibration_error = message[line_error].split()[9]...
    calibration_count = 1
    if 'HV9' in message[line_calibration].decode("utf-8").upper():
        calibration_type = 'HV9'
        calibration_position = '...'
    else:
        pass
else:
    calibration_count = 0
...
if calibration_count == 0:
    attributes_new = { ... }          # no calibration keys
else:
    attributes_new = { ..., "CalibrationType": calibration_type, ... }
```
When the calibration line lacks HV9, `calibration_type` is never assigned
and the second dictionary raises an unbound-local-name error. -/

/-- Calibration position literal of line 128 of the source. -/
def calibrationPositionLiteral : String :=
  "[[400,300],[400,51],[400,549],[48,300],[752,300],[48,51],[752,51],[48,549],[752,549]]"

/-- Embeds the calibration-dependent slice of `edf2bids`: the detection of
the calibration lines (lines 116-133) and the calibration entries of the
`attributes_new` dictionary (lines 276-305).  Errors embed the Python
exceptions raised on this path: the `UnboundLocalError` inside
`find_line_with_string` on an empty message list, the `IndexError` when the
ERROR line has fewer than ten fields, and the `UnboundLocalError` on
`calibration_type` when the calibration line does not mention HV9. -/
def edf2bidsCalibration (message : List String) : Except String (List (String × String)) :=
  match find_line_with_string message "CALIBRATION (",
        find_line_with_string message "ERROR" with
  | some line_calibration, some line_error =>
    match line_calibration, line_error with
    | some lc, some le =>
      match (pySplit (message.getD le "")).get? 7, (pySplit (message.getD le "")).get? 9 with
      | some average_calibration_error, some max_calibration_error =>
        if strContains (pyUpper (message.getD lc "")) "HV9" then
          Except.ok [("CalibrationCount", "1"), ("CalibrationType", "HV9"),
            ("CalibrationPosition", calibrationPositionLiteral),
            ("AverageCalibrationError", average_calibration_error),
            ("MaximalCalibrationError", max_calibration_error)]
        else
          Except.error "UnboundLocalError: calibration_type referenced before assignment"
      | _, _ => Except.error "IndexError: list index out of range"
    | _, _ => Except.ok [("CalibrationCount", "0")]
  | _, _ => Except.error "UnboundLocalError: found_line referenced before assignment"

/-- Claim C9: when the EDF message stream has a line containing
"CALIBRATION (" and a line containing "ERROR" (with the usual ten-field
ERROR line) but the calibration line does not contain HV9, then
`calibration_count` is 1 while `calibration_type` is never assigned, so
assembling the sidecar attribute dictionary fails with an
unbound-local-name error and `edf2bids` does not return a `PhysioData`. -/
theorem edf2bids_calibration_unbound (message : List String) (lc le : ℕ)
    (hlc : find_line_with_string message "CALIBRATION (" = some (some lc))
    (hle : find_line_with_string message "ERROR" = some (some le))
    (hfields : 10 ≤ (pySplit (message.getD le "")).length)
    (hnohv9 : strContains (pyUpper (message.getD lc "")) "HV9" = false) :
    edf2bidsCalibration message =
      Except.error "UnboundLocalError: calibration_type referenced before assignment" := by
  have h7 : (pySplit (message.getD le "")).get? 7
      = some ((pySplit (message.getD le "")).get ⟨7, by omega⟩) :=
    List.get?_eq_get (by omega)
  have h9 : (pySplit (message.getD le "")).get? 9
      = some ((pySplit (message.getD le "")).get ⟨9, by omega⟩) :=
    List.get?_eq_get (by omega)
  simp only [edf2bidsCalibration, hlc, hle, h7, h9, hnohv9, Bool.false_eq_true, if_false]

/-- Concrete instantiation of `edf2bids_calibration_unbound`: an EyeLink
message list with an HV13 calibration line and a validation ERROR line
makes the attribute assembly fail on the unassigned `calibration_type`. -/
theorem edf2bids_calibration_unbound_witness :
    edf2bidsCalibration
      ["!CAL CALIBRATION (HV13,P-CR) done", "MSG 100 ERROR a b c d e 0.27 avg 0.43 max"]
      = Except.error "UnboundLocalError: calibration_type referenced before assignment" :=
  edf2bids_calibration_unbound
    ["!CAL CALIBRATION (HV13,P-CR) done", "MSG 100 ERROR a b c d e 0.27 avg 0.43 max"]
    0 1 (by decide) (by decide) (by decide) (by decide)

/-! ### `edf2bids` signal extraction (edf2bidsphysio.py, lines 250-273)

Python:
```
physio = PhysioData()
for wc in range(len(column_list)):
    indc = np.where(column_list[wc] == samples.columns)[0]
    physio_label = samples.columns[indc][0]
    s = samples[samples.columns[indc][0]].values.tolist()
    if not ((samples[...] == 0.0).all() or (samples[...] == 127.0).all()
            or (samples[...] == 32768.0).all() or (samples[...] == -32768.0).all()):
        physio.append_signal(PhysioSignal(label=physio_label,
            samples_per_second=int(sampling_frequency),
            sampling_times=sample_times, signal=s))
```
The dataframe is abstracted as the map `col` from a column name to the list
of its samples, which is how the loop body accesses it. -/

/-- One appended physio signal of the `edf2bids` loop. -/
structure EDFSignal where
  label : String
  samples_per_second : ℤ
  sampling_times : List ℚ
  signal : List ℚ
  deriving DecidableEq

/-- Embeds the sentinel test of lines 259-264: the column is skipped when
all its samples equal 0.0, 127.0, 32768.0 or -32768.0. -/
def isSentinelConstant (s : List ℚ) : Bool :=
  s.all (fun v => decide (v = 0)) || s.all (fun v => decide (v = 127)) ||
    s.all (fun v => decide (v = 32768)) || s.all (fun v => decide (v = -32768))

/-- The `PhysioSignal` built for column `c` on lines 266-273. -/
def edfSignalOf (col : String → List ℚ) (sampling_frequency : ℤ)
    (sample_times : List ℚ) (c : String) : EDFSignal :=
  { label := c, samples_per_second := sampling_frequency,
    sampling_times := sample_times, signal := col c }

/-- Embeds the loop of lines 254-273 of `edf2bids`, accumulating the
appended signals in order. -/
def edf2bidsSignals (column_list : List String) (col : String → List ℚ)
    (sampling_frequency : ℤ) (sample_times : List ℚ) : List EDFSignal :=
  column_list.foldl
    (fun physio c =>
      if isSentinelConstant (col c) then physio
      else physio ++ [edfSignalOf col sampling_frequency sample_times c])
    []

theorem edf2bidsSignals_foldl (column_list : List String) (col : String → List ℚ)
    (sampling_frequency : ℤ) (sample_times : List ℚ) (acc : List EDFSignal) :
    column_list.foldl
      (fun physio c =>
        if isSentinelConstant (col c) then physio
        else physio ++ [edfSignalOf col sampling_frequency sample_times c])
      acc
    = acc ++ (column_list.filter (fun c => !isSentinelConstant (col c))).map
        (edfSignalOf col sampling_frequency sample_times) := by
  induction column_list generalizing acc with
  | nil => simp
  | cons c cs ih =>
    by_cases hc : isSentinelConstant (col c)
    · simp only [List.foldl_cons, List.filter_cons, hc, Bool.not_true, if_pos hc]
      rw [ih]
      rfl
    · have hc' : isSentinelConstant (col c) = false := by
        cases h : isSentinelConstant (col c)
        · rfl
        · exact absurd h hc
      simp only [List.foldl_cons, List.filter_cons, hc', Bool.not_false, if_neg hc]
      rw [ih]
      simp

/-- Claim C8: `edf2bids` omits every selected column whose samples are all
0.0, all 127.0, all 32768.0 or all -32768.0 (sentinel-constant columns,
including a constant trigger channel), and appends every other selected
column as a `PhysioSignal` with the declared sampling frequency and the
shared sample-time vector, in column order. -/
theorem edf2bids_sentinel_filter (column_list : List String) (col : String → List ℚ)
    (sampling_frequency : ℤ) (sample_times : List ℚ) :
    edf2bidsSignals column_list col sampling_frequency sample_times
      = (column_list.filter (fun c => !isSentinelConstant (col c))).map
          (edfSignalOf col sampling_frequency sample_times) ∧
    ∀ c : String,
      isSentinelConstant (col c) = true ↔
        ((∀ v ∈ col c, v = (0 : ℚ)) ∨ (∀ v ∈ col c, v = (127 : ℚ)) ∨
          (∀ v ∈ col c, v = (32768 : ℚ)) ∨ (∀ v ∈ col c, v = (-32768 : ℚ))) := by
  constructor
  · exact edf2bidsSignals_foldl column_list col sampling_frequency sample_times []
  · intro c
    simp only [isSentinelConstant, Bool.or_eq_true, List.all_eq_true, decide_eq_true_eq]
    tauto

/-- Concrete instantiation of `edf2bids_sentinel_filter`: a constant
trigger column at 127.0 is dropped while a varying gaze column is kept
with the declared frequency and time vector. -/
theorem edf2bids_sentinel_filter_witness :
    edf2bidsSignals ["eye1_x_coordinate", "trigger"]
        (fun c => if c = "trigger" then [127, 127] else [5, 6]) 500 [0, 2]
      = [{ label := "eye1_x_coordinate", samples_per_second := 500,
           sampling_times := [0, 2], signal := [5, 6] }] := by
  rw [(edf2bids_sentinel_filter ["eye1_x_coordinate", "trigger"]
    (fun c => if c = "trigger" then [127, 127] else [5, 6]) 500 [0, 2]).1]
  decide

/-! ### `edfevents2bids` trigger digitization (edf2bidsphysio.py, lines 387-402)

Python:
```
tmp = np.array(samples.input)
counts, bin_edges = np.histogram(tmp[~np.isnan(tmp)], bins=10, range=[min(tmp), max(tmp)])
first_bin = bin_edges[np.argmax(counts)] + (bin_edges[1] - bin_edges[0]) / 2
counts[np.argmax(counts)] = 0
second_bin = bin_edges[np.argmax(counts)] + (bin_edges[1] - bin_edges[0]) / 2
threshold = (first_bin + second_bin) / 2
dg_signal = tmp
dg_signal[tmp < threshold] = 0
dg_signal[tmp > threshold] = 1
dg_signal[np.isnan(tmp)] = 0
ind_trig = (dg_signal != 0.0).argmax()
```
Note that `dg_signal` aliases `tmp`, so the second masked assignment is
evaluated on the array already mutated by the first one. -/

/-- One step of the Python builtin `min` over the samples: a NaN candidate
never wins a comparison, so NaN is skipped unless it is the running value. -/
def pyMinStep : Option ℚ → Option ℚ → Option ℚ
  | some c, some v => if v < c then some v else some c
  | cur, _ => cur

/-- One step of the Python builtin `max` over the samples. -/
def pyMaxStep : Option ℚ → Option ℚ → Option ℚ
  | some c, some v => if c < v then some v else some c
  | cur, _ => cur

/-- The `range=[min(tmp), max(tmp)]` argument of the histogram call.
`none` embeds the errors on this path: `min`/`max` of an empty array raise,
and numpy rejects a NaN range (which happens when the first sample is NaN
and poisons the Python `min`). -/
def histRange (s : List (Option ℚ)) : Option (ℚ × ℚ) :=
  match s with
  | [] => none
  | x :: xs =>
    match xs.foldl pyMinStep x, xs.foldl pyMaxStep x with
    | some mn, some mx => some (mn, mx)
    | _, _ => none

/-- The non-NaN samples, `tmp[~np.isnan(tmp)]`. -/
def finiteVals (s : List (Option ℚ)) : List ℚ :=
  s.filterMap id

/-- numpy widening of a degenerate histogram range. -/
def histBounds (mn mx : ℚ) : ℚ × ℚ :=
  if mn = mx then (mn - 1 / 2, mx + 1 / 2) else (mn, mx)

/-- numpy bin assignment for `np.histogram(..., bins=10, range=[mn, mx])`:
values outside the range are ignored, bins are left-closed and the last
bin is closed on both sides. -/
def binOf (mn mx v : ℚ) : Option ℕ :=
  if v < mn ∨ mx < v then none
  else some (min 9 (Int.toNat ⌊(v - mn) * 10 / (mx - mn)⌋))

/-- Histogram counts of the finite samples over the (widened) range. -/
def histCounts (s : List (Option ℚ)) (mn mx : ℚ) : List ℕ :=
  (List.range 10).map (fun b => (finiteVals s).countP (fun v => decide (binOf mn mx v = some b)))

/-- `np.argmax`: index of the first maximal entry of the count vector. -/
def np_argmax_go : List ℕ → ℕ → ℕ → ℕ → ℕ
  | [], _, best, _ => best
  | x :: xs, i, best, bestv =>
    if bestv < x then np_argmax_go xs (i + 1) i x else np_argmax_go xs (i + 1) best bestv

/-- `np.argmax` on a vector of non-negative counts. -/
def np_argmax (l : List ℕ) : ℕ :=
  np_argmax_go l 0 0 0

/-- Embeds lines 388-396: the threshold midway between the centers of the
two modal histogram bins (`bin_edges[k] = mn + k * w` with
`w = (mx - mn) / 10`, and a bin center is its left edge plus `w / 2`). -/
def edfThreshold (s : List (Option ℚ)) : Option ℚ :=
  match histRange s with
  | none => none
  | some (mn0, mx0) =>
    let bounds := histBounds mn0 mx0
    let mn := bounds.1
    let mx := bounds.2
    let w := (mx - mn) / 10
    let counts := histCounts s mn mx
    let amax := np_argmax counts
    let first_bin := mn + amax * w + w / 2
    let counts2 := counts.set amax 0
    let amax2 := np_argmax counts2
    let second_bin := mn + amax2 * w + w / 2
    some ((first_bin + second_bin) / 2)

/-- `dg_signal[tmp < threshold] = 0`, in place on the aliased array. -/
def binarizeStep1 (threshold : ℚ) (s : List (Option ℚ)) : List (Option ℚ) :=
  s.map (fun v => match v with
    | some x => if x < threshold then some 0 else some x
    | none => none)

/-- `dg_signal[tmp > threshold] = 1`, evaluated on the array already
mutated by the first masked assignment. -/
def binarizeStep2 (threshold : ℚ) (s : List (Option ℚ)) : List (Option ℚ) :=
  s.map (fun v => match v with
    | some x => if threshold < x then some 1 else some x
    | none => none)

/-- `dg_signal[np.isnan(tmp)] = 0`: the NaN entries were untouched by the
two comparisons and every other entry already holds a number. -/
def binarizeStep3 (s : List (Option ℚ)) : List ℚ :=
  s.map (fun v => v.getD 0)

/-- The digitized trigger sequence of lines 397-400. -/
def edfBinarized (s : List (Option ℚ)) : Option (List ℚ) :=
  (edfThreshold s).map (fun th => binarizeStep3 (binarizeStep2 th (binarizeStep1 th s)))

/-- `ind_trig = (dg_signal != 0.0).argmax()` (line 401): the index of the
first nonzero digitized sample, and 0 when all samples are zero. -/
def edfIndTrig (s : List (Option ℚ)) : Option ℕ :=
  (edfBinarized s).map (fun dg => (firstIdxP (fun v => decide (v ≠ 0)) dg).getD 0)

/-- Claim C1, amended: for every auxiliary analog channel whose histogram
threshold is defined (in particular the channel has at least two distinct
finite values and a finite first sample) and NONNEGATIVE, the produced
binarized sequence maps every sample below the threshold to 0, every
sample above it to 1 and every NaN sample to 0, and the trigger alignment
anchor is the index of the first nonzero binarized sample (0 when there is
none).  The nonnegativity hypothesis is forced by the in-place aliasing
`dg_signal = tmp`: for a negative threshold the zeros written by the first
masked assignment are re-written to 1 by the second one. -/
theorem edf_digitize_threshold_nonneg (s : List (Option ℚ)) (th : ℚ)
    (hth : edfThreshold s = some th) (hpos : 0 ≤ th) :
    ∃ dg, edfBinarized s = some dg ∧ dg.length = s.length ∧
      (∀ i, s.get? i = some none → dg.get? i = some 0) ∧
      (∀ i x, s.get? i = some (some x) →
        (x < th → dg.get? i = some 0) ∧ (th < x → dg.get? i = some 1)) ∧
      edfIndTrig s = some ((firstIdxP (fun v => decide (v ≠ 0)) dg).getD 0) ∧
      (∀ j, firstIdxP (fun v => decide (v ≠ 0)) dg = some j →
        ∃ hj : j < dg.length, dg.get ⟨j, hj⟩ ≠ 0 ∧
          ∀ k (hk : k < j), dg.get ⟨k, Nat.lt_trans hk hj⟩ = 0) := by
  refine ⟨binarizeStep3 (binarizeStep2 th (binarizeStep1 th s)), ?_, ?_, ?_, ?_, ?_, ?_⟩
  · rw [edfBinarized, hth]
    rfl
  · simp [binarizeStep1, binarizeStep2, binarizeStep3]
  · intro i hi
    simp only [binarizeStep3, binarizeStep2, binarizeStep1, List.get?_map, hi]
    rfl
  · intro i x hi
    constructor
    · intro hlt
      have h2 : ¬ th < (0 : ℚ) := not_lt.mpr hpos
      simp only [binarizeStep3, binarizeStep2, binarizeStep1, List.get?_map, hi,
        Option.map_some', hlt, if_true, h2, if_false]
      rfl
    · intro hgt
      have h1 : ¬ x < th := not_lt.mpr (le_of_lt hgt)
      simp only [binarizeStep3, binarizeStep2, binarizeStep1, List.get?_map, hi,
        Option.map_some', h1, if_false, hgt, if_true]
      rfl
  · rw [edfIndTrig, edfBinarized, hth]
    rfl
  · intro j hj
    have h := (firstIdxP_eq_some_iff (fun v => decide (v ≠ 0)) _ j).mp hj
    rcases h with ⟨hlen, hp, hmin⟩
    refine ⟨hlen, by simpa using hp, ?_⟩
    intro k hk
    have := hmin k hk
    simpa using this

/-- Claim C1 as stated fails on the channel `[-10, -10, -1]`: the computed
threshold is `-11/2`, the sample `-10` is below the threshold, yet the
binarized sequence is `[1, 1, 1]` (not 0 at that sample) and the anchor is
index 0 instead of the first genuinely active sample.  The first masked
assignment writes 0 over the sub-threshold samples and the second one,
evaluated on the aliased array, rewrites those zeros to 1 because
`0 > threshold`. -/
theorem edf_digitize_claim_counterexample :
    edfThreshold [some (-10), some (-10), some (-1)] = some (-11 / 2) ∧
    edfBinarized [some (-10), some (-10), some (-1)] = some [1, 1, 1] ∧
    ((-10 : ℚ) < -11 / 2) ∧ ((1 : ℚ) ≠ 0) ∧
    edfIndTrig [some (-10), some (-10), some (-1)] = some 0 := by
  have hrange : histRange [some (-10), some (-10), some (-1)] = some (-10, -1) := by
    norm_num [histRange, pyMinStep, pyMaxStep]
  have hb1 : binOf (-10) (-1) (-10) = some 0 := by
    norm_num [binOf]
  have hb2 : binOf (-10) (-1) (-1) = some 9 := by
    norm_num [binOf]
  have hrangeten : List.range 10 = [0, 1, 2, 3, 4, 5, 6, 7, 8, 9] := rfl
  have hfin : finiteVals [some (-10), some (-10), some (-1)] = [-10, -10, -1] := rfl
  have hcounts : histCounts [some (-10), some (-10), some (-1)] (-10) (-1)
      = [2, 0, 0, 0, 0, 0, 0, 0, 0, 1] := by
    simp only [histCounts, hfin, hrangeten, List.map_cons, List.map_nil,
      List.countP_cons, List.countP_nil, hb1, hb2]
    norm_num
  have hargmax1 : np_argmax [2, 0, 0, 0, 0, 0, 0, 0, 0, 1] = 0 := rfl
  have hset : [2, 0, 0, 0, 0, 0, 0, 0, 0, 1].set 0 0 = [0, 0, 0, 0, 0, 0, 0, 0, 0, 1] := rfl
  have hargmax2 : np_argmax [0, 0, 0, 0, 0, 0, 0, 0, 0, 1] = 9 := rfl
  have hthm : edfThreshold [some (-10), some (-10), some (-1)] = some (-11 / 2) := by
    simp only [edfThreshold, hrange]
    norm_num [histBounds, hcounts, hargmax1, hset, hargmax2]
  have hbin : edfBinarized [some (-10), some (-10), some (-1)] = some [1, 1, 1] := by
    simp only [edfBinarized, hthm, Option.map_some']
    norm_num [binarizeStep1, binarizeStep2, binarizeStep3]
  have hind : edfIndTrig [some (-10), some (-10), some (-1)] = some 0 := by
    simp only [edfIndTrig, hbin, Option.map_some']
    norm_num [firstIdxP]
  exact ⟨hthm, hbin, by norm_num, by norm_num, hind⟩

/-- Concrete instantiation of `edf_digitize_threshold_nonneg` on the
channel `[0, 0, 0, 10]`: the threshold is 5 and the binarized sequence is
0 below it and 1 above it. -/
theorem edf_digitize_threshold_nonneg_witness :
    ∃ dg, edfBinarized [some 0, some 0, some 0, some 10] = some dg ∧
      dg.get? 0 = some 0 ∧ dg.get? 3 = some 1 := by
  have hrange : histRange [some 0, some 0, some 0, some 10] = some (0, 10) := by
    norm_num [histRange, pyMinStep, pyMaxStep]
  have hb1 : binOf 0 10 0 = some 0 := by
    norm_num [binOf]
  have hb2 : binOf 0 10 10 = some 9 := by
    norm_num [binOf]
  have hrangeten : List.range 10 = [0, 1, 2, 3, 4, 5, 6, 7, 8, 9] := rfl
  have hfin : finiteVals [some 0, some 0, some 0, some 10] = [0, 0, 0, 10] := rfl
  have hcounts : histCounts [some 0, some 0, some 0, some 10] 0 10
      = [3, 0, 0, 0, 0, 0, 0, 0, 0, 1] := by
    simp only [histCounts, hfin, hrangeten, List.map_cons, List.map_nil,
      List.countP_cons, List.countP_nil, hb1, hb2]
    norm_num
  have hargmax1 : np_argmax [3, 0, 0, 0, 0, 0, 0, 0, 0, 1] = 0 := rfl
  have hset : [3, 0, 0, 0, 0, 0, 0, 0, 0, 1].set 0 0 = [0, 0, 0, 0, 0, 0, 0, 0, 0, 1] := rfl
  have hargmax2 : np_argmax [0, 0, 0, 0, 0, 0, 0, 0, 0, 1] = 9 := rfl
  have hthm : edfThreshold [some 0, some 0, some 0, some 10] = some 5 := by
    simp only [edfThreshold, hrange]
    norm_num [histBounds, hcounts, hargmax1, hset, hargmax2]
  obtain ⟨dg, hdg, hlen, hnan, hpt, hind, hanchor⟩ :=
    edf_digitize_threshold_nonneg [some 0, some 0, some 0, some 10] 5 hthm (by norm_num)
  refine ⟨dg, hdg, ?_, ?_⟩
  · exact (hpt 0 0 rfl).1 (by norm_num)
  · exact (hpt 3 10 rfl).2 (by norm_num)

/-! ### PMU raw signal sanitization

`bidsphysio/pmu2bidsphysio.py` is not among the available sources, only its
test file is, so `parserawPMUsignal` and its relatives below are modelled
from the specification (spec sections 4.2 and 8). -/

/-- A raw PMU token: the empty leading artifact or an integer literal. -/
inductive Token : Type
  | empty : Token
  | val : ℤ → Token
  deriving DecidableEq

/-- Modelled from the spec: the sanitizer drops exactly one leading empty
token (format artifact). -/
def dropLeadingEmpty : List Token → List Token
  | Token.empty :: rest => rest
  | l => l

/-- Modelled from the spec: numeric conversion of one token.  The outer
`none` embeds the `ValueError` Python raises when converting a non-numeric
token; the inner `none` is the NaN that replaces the trigger-on (5000) and
trigger-off (6000) sentinel codes. -/
def tokenToNum : Token → Option (Option ℤ)
  | Token.empty => none
  | Token.val n => if n = 5000 ∨ n = 6000 then some none else some (some n)

/-- Index of the first end-of-recording sentinel 5003. -/
def pmuEndIdx : List Token → Option ℕ
  | [] => none
  | t :: ts => if t = Token.val 5003 then some 0 else (pmuEndIdx ts).map (· + 1)

/-- The warning printed when the end-of-recording code is missing. -/
def pmuWarning : String :=
  "Warning: End of physio recording not found"

/-- Modelled from the spec: `parserawPMUsignal` drops one leading empty
token, truncates the stream at the first end-of-recording code 5003
(warning instead when there is none), replaces the trigger codes 5000 and
6000 by NaN and converts the rest to numbers.  Returns the emitted warnings
together with the numeric sequence; `none` embeds a conversion error. -/
def parserawPMUsignal (raw : List Token) : Option (List String × List (Option ℤ)) :=
  let r := dropLeadingEmpty raw
  match pmuEndIdx r with
  | some i => ((r.take i).mapM tokenToNum).map (fun s => ([], s))
  | none => (r.mapM tokenToNum).map (fun s => ([pmuWarning], s))

/-- Claim C2: the raw PMU token stream
`['', '1733', '5000', '1725', '6000', '1721', '5003', '1718']` sanitizes to
`[1733, NaN, 1725, NaN, 1721]` with no warning: the trigger codes become
NaN, emission stops at the first 5003 (dropping the trailing 1718), and
none of the codes 5000, 5003, 6000 appears in the output. -/
theorem parserawPMUsignal_scenario :
    parserawPMUsignal
        [Token.empty, Token.val 1733, Token.val 5000, Token.val 1725,
          Token.val 6000, Token.val 1721, Token.val 5003, Token.val 1718]
      = some ([], [some 1733, none, some 1725, none, some 1721]) ∧
    some (5000 : ℤ) ∉ [some (1733 : ℤ), none, some 1725, none, some 1721] ∧
    some (5003 : ℤ) ∉ [some (1733 : ℤ), none, some 1725, none, some 1721] ∧
    some (6000 : ℤ) ∉ [some (1733 : ℤ), none, some 1725, none, some 1721] := by
  refine ⟨rfl, ?_, ?_, ?_⟩ <;> decide

/-- The spec-side numeric conversion used to state what a fully numeric
stream sanitizes to: trigger codes to NaN, other values to themselves. -/
def tokenSample : Token → Option ℤ
  | Token.empty => none
  | Token.val n => if n = 5000 ∨ n = 6000 then none else some n

theorem pmuEndIdx_eq_none (l : List Token) (h : Token.val 5003 ∉ l) :
    pmuEndIdx l = none := by
  induction l with
  | nil => rfl
  | cons t ts ih =>
    have ht : t ≠ Token.val 5003 := fun hc => h (hc ▸ List.mem_cons_self t ts)
    have hts : Token.val 5003 ∉ ts := fun hc => h (List.mem_cons_of_mem t hc)
    simp only [pmuEndIdx, if_neg ht, ih hts, Option.map_none']

theorem mapM_tokenToNum_of_no_empty (l : List Token) (h : Token.empty ∉ l) :
    l.mapM tokenToNum = some (l.map tokenSample) := by
  induction l with
  | nil => rfl
  | cons t ts ih =>
    have ht : t ≠ Token.empty := fun hc => h (hc ▸ List.mem_cons_self t ts)
    have hts : Token.empty ∉ ts := fun hc => h (List.mem_cons_of_mem t hc)
    have hval : tokenToNum t = some (tokenSample t) := by
      cases t with
      | empty => exact absurd rfl ht
      | val n =>
        by_cases hn : n = 5000 ∨ n = 6000
        · simp [tokenToNum, tokenSample, hn]
        · simp [tokenToNum, tokenSample, hn]
    rw [List.mapM_cons, hval, ih hts]
    rfl

/-- Claim C7, amended: on every raw PMU token stream of numeric tokens
(with at most the leading empty artifact) that contains no end-of-recording
code 5003, `parserawPMUsignal` does not fail: it emits the
end-not-found warning and returns all tokens after dropping the single
leading empty token when present, converted to numbers (with the trigger
codes 5000/6000 as NaN).  The original claim said "all tokens after the
first one", which only matches when the stream starts with the empty
artifact. -/
theorem parserawPMUsignal_no_end_amended (raw : List Token)
    (hnoend : Token.val 5003 ∉ raw)
    (hnum : Token.empty ∉ dropLeadingEmpty raw) :
    parserawPMUsignal raw
      = some ([pmuWarning], (dropLeadingEmpty raw).map tokenSample) := by
  have hnoend' : Token.val 5003 ∉ dropLeadingEmpty raw := by
    intro hc
    apply hnoend
    cases raw with
    | nil => exact absurd hc (by simp [dropLeadingEmpty])
    | cons t ts =>
      cases t with
      | empty => exact List.mem_cons_of_mem _ (by simpa [dropLeadingEmpty] using hc)
      | val n => simpa [dropLeadingEmpty] using hc
  rw [parserawPMUsignal]
  simp only [pmuEndIdx_eq_none _ hnoend', mapM_tokenToNum_of_no_empty _ hnum,
    Option.map_some']

/-- Counterexample to claim C7 as stated: the stream `['1733', '1725']`
has no end code and no leading empty artifact; the function returns BOTH
values, not "all tokens after the first one" (which would be `[1725]`). -/
theorem parserawPMUsignal_no_end_counterexample :
    parserawPMUsignal [Token.val 1733, Token.val 1725]
      = some ([pmuWarning], [some 1733, some 1725]) ∧
    [some (1733 : ℤ), some 1725] ≠ [some (1725 : ℤ)] := by
  refine ⟨rfl, ?_⟩
  decide

/-- Concrete instantiation of `parserawPMUsignal_no_end_amended` on the
stream of the test file (leading empty token, no 5003). -/
theorem parserawPMUsignal_no_end_amended_witness :
    parserawPMUsignal
        [Token.empty, Token.val 1733, Token.val 1725, Token.val 1725,
          Token.val 1721, Token.val 1721, Token.val 1718]
      = some ([pmuWarning],
          [some 1733, some 1725, some 1725, some 1721, some 1721, some 1718]) := by
  rw [parserawPMUsignal_no_end_amended
    [Token.empty, Token.val 1733, Token.val 1725, Token.val 1725,
      Token.val 1721, Token.val 1721, Token.val 1718]
    (by decide) (by decide)]
  rfl

/-! ### Sampling rate validation (`testSamplingRate`) -/

/-- Modelled from the spec: the default tolerance of `testSamplingRate`
(the spec only requires that 10 vs 9.8 Hz passes at the default while a
tenfold mismatch fails; 0.1 realizes both). -/
def defaultTolerance : ℚ := 1 / 10

/-- Modelled from the spec (section 4.3): `testSamplingRate` raises a
`ValueError` when `tolerance` is outside (0, 1); otherwise it compares the
declared rate with `(Nsamples - 1) / ((logTimes[1] - logTimes[0]) / 1000)`
and raises when the relative deviation exceeds the tolerance, returning
`None` otherwise.  `logTimes` is passed as its two entries `t0`, `t1`. -/
def testSamplingRate (sampling_rate Nsamples t0 t1 tolerance : ℚ) : Except String Unit :=
  if ¬ (0 < tolerance ∧ tolerance < 1) then
    Except.error "tolerance has to be between 0 and 1"
  else
    let expected := (Nsamples - 1) / ((t1 - t0) / 1000)
    if tolerance * |expected| < |sampling_rate - expected| then
      Except.error "sampling rate does not match the expected one"
    else Except.ok ()

/-- Claim C5: `testSamplingRate` raises a `ValueError` when the tolerance
is outside (0, 1) or when the declared rate deviates from
`(Nsamples - 1) / ((logTimes[1] - logTimes[0]) / 1000)` by more than the
relative tolerance, and returns normally otherwise; concretely,
tolerance -0.5 and tolerance 5 both raise, (rate 10, 99 samples, logTimes
[0, 10000]) passes at the default tolerance, and (rate 1, 100 samples,
logTimes [0, 10000]) raises. -/
theorem testSamplingRate_spec :
    (∀ r N t0 t1 tol : ℚ, ¬ (0 < tol ∧ tol < 1) →
      testSamplingRate r N t0 t1 tol
        = Except.error "tolerance has to be between 0 and 1") ∧
    (∀ r N t0 t1 tol : ℚ, 0 < tol → tol < 1 →
      (tol * |(N - 1) / ((t1 - t0) / 1000)| < |r - (N - 1) / ((t1 - t0) / 1000)| →
        testSamplingRate r N t0 t1 tol
          = Except.error "sampling rate does not match the expected one") ∧
      (|r - (N - 1) / ((t1 - t0) / 1000)| ≤ tol * |(N - 1) / ((t1 - t0) / 1000)| →
        testSamplingRate r N t0 t1 tol = Except.ok ())) ∧
    testSamplingRate 1 1 0 1000 (-(1 / 2))
      = Except.error "tolerance has to be between 0 and 1" ∧
    testSamplingRate 1 1 0 1000 5
      = Except.error "tolerance has to be between 0 and 1" ∧
    testSamplingRate 10 99 0 10000 defaultTolerance = Except.ok () ∧
    testSamplingRate 1 100 0 10000 defaultTolerance
      = Except.error "sampling rate does not match the expected one" := by
  have hgen1 : ∀ r N t0 t1 tol : ℚ, ¬ (0 < tol ∧ tol < 1) →
      testSamplingRate r N t0 t1 tol
        = Except.error "tolerance has to be between 0 and 1" := by
    intro r N t0 t1 tol htol
    rw [testSamplingRate, if_pos htol]
  have hgen2 : ∀ r N t0 t1 tol : ℚ, 0 < tol → tol < 1 →
      (tol * |(N - 1) / ((t1 - t0) / 1000)| < |r - (N - 1) / ((t1 - t0) / 1000)| →
        testSamplingRate r N t0 t1 tol
          = Except.error "sampling rate does not match the expected one") ∧
      (|r - (N - 1) / ((t1 - t0) / 1000)| ≤ tol * |(N - 1) / ((t1 - t0) / 1000)| →
        testSamplingRate r N t0 t1 tol = Except.ok ()) := by
    intro r N t0 t1 tol h0 h1
    have htol : ¬ ¬ (0 < tol ∧ tol < 1) := not_not.mpr ⟨h0, h1⟩
    constructor
    · intro hdev
      rw [testSamplingRate, if_neg htol]
      simp only []
      rw [if_pos hdev]
    · intro hdev
      rw [testSamplingRate, if_neg htol]
      simp only []
      rw [if_neg (not_lt.mpr hdev)]
  refine ⟨hgen1, hgen2, ?_, ?_, ?_, ?_⟩
  · exact hgen1 1 1 0 1000 (-(1 / 2)) (by norm_num)
  · exact hgen1 1 1 0 1000 5 (by norm_num)
  · refine (hgen2 10 99 0 10000 defaultTolerance (by norm_num [defaultTolerance])
      (by norm_num [defaultTolerance])).2 ?_
    rw [show ((99 : ℚ) - 1) / ((10000 - 0) / 1000) = 49 / 5 by norm_num]
    rw [show |(10 : ℚ) - 49 / 5| = 1 / 5 by norm_num [abs_of_nonneg]]
    rw [show |(49 : ℚ) / 5| = 49 / 5 from abs_of_nonneg (by norm_num)]
    norm_num [defaultTolerance]
  · refine (hgen2 1 100 0 10000 defaultTolerance (by norm_num [defaultTolerance])
      (by norm_num [defaultTolerance])).1 ?_
    rw [show ((100 : ℚ) - 1) / ((10000 - 0) / 1000) = 99 / 10 by norm_num]
    rw [show |(1 : ℚ) - 99 / 10| = 89 / 10 by rw [abs_of_nonpos] <;> norm_num]
    rw [show |(99 : ℚ) / 10| = 99 / 10 from abs_of_nonneg (by norm_num)]
    norm_num [defaultTolerance]

/-- Concrete instantiation of `testSamplingRate_spec`: a tolerance of 2 is
rejected. -/
theorem testSamplingRate_spec_witness :
    testSamplingRate 10 99 0 10000 2
      = Except.error "tolerance has to be between 0 and 1" :=
  testSamplingRate_spec.1 10 99 0 10000 2 (by norm_num)

/-! ### PMU log readers and format errors

The readers of `pmu2bidsphysio.py` are not among the available sources;
they are modelled from the specification (sections 4.1 and 7): a log file
is abstracted as its file name, the revision marker of its header, and its
already-tokenized content, and a reader returns the spec contract tuple
`(signal kind, timing markers, sampling rate, raw samples)` or fails with
a format error when the header does not carry the marker of the revision
the reader expects. -/

/-- Modelled from the spec: abstraction of a PMU log file. -/
structure PMUFile where
  fname : String
  formatHeader : String
  kind : String
  MDHTime : List ℤ
  rate : ℤ
  signal : List (Option ℤ)
  deriving DecidableEq

/-- Modelled from the spec: the payload of a `PMUFormatError` — context
message, file name, expected marker and the marker actually found. -/
structure PMUFormatError where
  context : String
  fname : String
  expected : String
  got : String
  deriving DecidableEq

/-- Modelled from the spec: revision marker expected by `readVE11Cpmu`. -/
def ve11cMarker : String := "VE11C"

/-- Modelled from the spec: revision marker expected by `readVBXpmu`. -/
def vbxMarker : String := "VBX"

/-- Modelled from the spec: `readVE11Cpmu` fails with a `PMUFormatError`
on any file whose header does not carry the VE11C marker, and otherwise
returns the parsed tuple. -/
def readVE11Cpmu (f : PMUFile) :
    Except PMUFormatError (String × List ℤ × ℤ × List (Option ℤ)) :=
  if f.formatHeader = ve11cMarker then Except.ok (f.kind, f.MDHTime, f.rate, f.signal)
  else Except.error
    { context := "File does not seem to be a VE11C PMU file", fname := f.fname,
      expected := ve11cMarker, got := f.formatHeader }

/-- Modelled from the spec: `readVBXpmu`, the VBX-revision reader. -/
def readVBXpmu (f : PMUFile) :
    Except PMUFormatError (String × List ℤ × ℤ × List (Option ℤ)) :=
  if f.formatHeader = vbxMarker then Except.ok (f.kind, f.MDHTime, f.rate, f.signal)
  else Except.error
    { context := "File does not seem to be a VBX PMU file", fname := f.fname,
      expected := vbxMarker, got := f.formatHeader }

/-- Claim C6: on every PMU log file whose header does not match the
revision a reader attempts to parse (e.g. `readVE11Cpmu` on a VBX file or
`readVBXpmu` on a VE11C file), the reader raises a `PMUFormatError`
carrying the context message, the file name and the expected/got markers,
instead of returning a parsed result. -/
theorem readpmu_format_error :
    (∀ f : PMUFile, f.formatHeader ≠ ve11cMarker →
      readVE11Cpmu f = Except.error
        { context := "File does not seem to be a VE11C PMU file", fname := f.fname,
          expected := ve11cMarker, got := f.formatHeader }) ∧
    (∀ f : PMUFile, f.formatHeader ≠ vbxMarker →
      readVBXpmu f = Except.error
        { context := "File does not seem to be a VBX PMU file", fname := f.fname,
          expected := vbxMarker, got := f.formatHeader }) := by
  constructor
  · intro f hf
    rw [readVE11Cpmu, if_neg hf]
  · intro f hf
    rw [readVBXpmu, if_neg hf]

/-- Concrete instantiation of `readpmu_format_error`: the VE11C reader
rejects a VBX file and conversely, each error carrying context, file name
and expected/got markers. -/
theorem readpmu_format_error_witness :
    readVE11Cpmu
        { fname := "sample_VBX.puls", formatHeader := "VBX", kind := "PULSE",
          MDHTime := [47029710, 47654452], rate := 50, signal := [] }
      = Except.error
        { context := "File does not seem to be a VE11C PMU file",
          fname := "sample_VBX.puls", expected := "VE11C", got := "VBX" } ∧
    readVBXpmu
        { fname := "sample_VE11C.puls", formatHeader := "VE11C", kind := "PULS",
          MDHTime := [39008572, 39017760], rate := 400, signal := [] }
      = Except.error
        { context := "File does not seem to be a VBX PMU file",
          fname := "sample_VE11C.puls", expected := "VBX", got := "VE11C" } := by
  constructor
  · exact readpmu_format_error.1 _ (by decide)
  · exact readpmu_format_error.2 _ (by decide)

/-! ### PhysioData model

`bidsphysio/bidsphysio.py` is not among the available sources, only its
test file is; the model below follows the specification (sections 3, 4.4
and 4.5). -/

/-- Modelled from the spec (section 3): one physiological signal with its
label, sampling rate, start time and samples. -/
structure physiosignal where
  label : String
  samples_per_second : ℚ
  physiostarttime : ℚ
  signal : List ℚ
  deriving DecidableEq

/-- Modelled from the spec (section 3): an ordered collection of signals. -/
structure physiodata where
  signals : List physiosignal
  deriving DecidableEq

/-- Modelled from the spec (sections 4.4 and 8): the timestamps
`start_time + i / rate` of the trigger samples with value 1. -/
def trigger_times (s : physiosignal) : List ℚ :=
  (List.range s.signal.length).filterMap
    (fun i =>
      if s.signal.getD i 0 = 1 then
        some (s.physiostarttime + (i : ℚ) / s.samples_per_second)
      else none)

/-- Modelled from the spec (section 4.4): `get_trigger_timing` looks up
the signal labeled "trigger" and returns the timestamps of its samples
with value 1; with no such signal it fails with the lookup `ValueError`
of `list.index`. -/
def get_trigger_timing (pd : physiodata) : Except String (List ℚ) :=
  match pd.signals.find? (fun s => decide (s.label = "trigger")) with
  | none => Except.error "ValueError: trigger is not in list"
  | some s => Except.ok (trigger_times s)

theorem pairwise_filterMap_of_pairwise {α β : Type} {R : α → α → Prop}
    {Q : β → β → Prop} (f : α → Option β)
    (hf : ∀ a b : α, R a b → ∀ x, f a = some x → ∀ y, f b = some y → Q x y) :
    ∀ l : List α, l.Pairwise R → (l.filterMap f).Pairwise Q := by
  intro l
  induction l with
  | nil => simp
  | cons a l ih =>
    intro h
    rcases List.pairwise_cons.mp h with ⟨ha, hl⟩
    rw [List.filterMap_cons]
    cases hfa : f a with
    | none => exact ih hl
    | some x =>
      rw [List.pairwise_cons]
      refine ⟨?_, ih hl⟩
      intro y hy
      rcases List.mem_filterMap.mp hy with ⟨b, hb, hfb⟩
      exact hf a b (ha b hb) x hfa y hfb

/-- Claim C3: on every `physiodata` whose trigger lookup succeeds on a
signal with positive sampling rate `r` and start time `t0`,
`get_trigger_timing` returns exactly the timestamps `t0 + i / r` of the
samples with value 1, in (strictly) ascending order; on every
`physiodata` with no signal labeled "trigger" it fails with the lookup
error. -/
theorem get_trigger_timing_spec :
    (∀ pd : physiodata,
      pd.signals.find? (fun s => decide (s.label = "trigger")) = none →
      get_trigger_timing pd = Except.error "ValueError: trigger is not in list") ∧
    (∀ (pd : physiodata) (s : physiosignal),
      pd.signals.find? (fun s => decide (s.label = "trigger")) = some s →
      0 < s.samples_per_second →
      get_trigger_timing pd = Except.ok (trigger_times s) ∧
      (∀ t : ℚ, t ∈ trigger_times s ↔
        ∃ i, i < s.signal.length ∧ s.signal.getD i 0 = 1 ∧
          t = s.physiostarttime + (i : ℚ) / s.samples_per_second) ∧
      (trigger_times s).Sorted (· < ·)) := by
  constructor
  · intro pd hf
    rw [get_trigger_timing, hf]
  · intro pd s hf hr
    refine ⟨?_, ?_, ?_⟩
    · rw [get_trigger_timing, hf]
    · intro t
      simp only [trigger_times, List.mem_filterMap, List.mem_range]
      constructor
      · rintro ⟨i, hi, hit⟩
        by_cases hcond : s.signal.getD i 0 = 1
        · rw [if_pos hcond] at hit
          injection hit with hit
          exact ⟨i, hi, hcond, hit.symm⟩
        · rw [if_neg hcond] at hit
          exact absurd hit (by simp)
      · rintro ⟨i, hi, hcond, ht⟩
        exact ⟨i, hi, by rw [if_pos hcond, ht]⟩
    · have hpair := List.pairwise_lt_range s.signal.length
      exact pairwise_filterMap_of_pairwise _
        (by
          intro i j hij x hx y hy
          by_cases hci : s.signal.getD i 0 = 1
          · rw [if_pos hci] at hx
            injection hx with hx
            by_cases hcj : s.signal.getD j 0 = 1
            · rw [if_pos hcj] at hy
              injection hy with hy
              subst hx
              subst hy
              have hij' : (i : ℚ) < (j : ℚ) := by exact_mod_cast hij
              gcongr
            · rw [if_neg hcj] at hy
              exact absurd hy (by simp)
          · rw [if_neg hci] at hx
            exact absurd hx (by simp))
        _ hpair

/-- Concrete instantiation of `get_trigger_timing_spec`: the physiodata of
the test file, three plain signals plus a trigger at 5 Hz starting at 0
whose samples are 1 at indices 0 and 5, yields the timestamps 0 and 1; the
same physiodata without the trigger signal fails with the lookup error. -/
theorem get_trigger_timing_spec_witness :
    get_trigger_timing
        { signals :=
            [{ label := "signal1", samples_per_second := 1, physiostarttime := 0,
               signal := [0, 1, 2, 3, 4, 5, 6, 7, 8, 9] },
             { label := "trigger", samples_per_second := 5, physiostarttime := 0,
               signal := [1, 0, 0, 0, 0, 1, 0, 0, 0, 0] }] }
      = Except.ok [0, 1] ∧
    get_trigger_timing
        { signals :=
            [{ label := "signal1", samples_per_second := 1, physiostarttime := 0,
               signal := [0, 1, 2, 3, 4, 5, 6, 7, 8, 9] }] }
      = Except.error "ValueError: trigger is not in list" := by
  constructor
  · have h := (get_trigger_timing_spec.2
      { signals :=
          [{ label := "signal1", samples_per_second := 1, physiostarttime := 0,
             signal := [0, 1, 2, 3, 4, 5, 6, 7, 8, 9] },
           { label := "trigger", samples_per_second := 5, physiostarttime := 0,
             signal := [1, 0, 0, 0, 0, 1, 0, 0, 0, 0] }] }
      { label := "trigger", samples_per_second := 5, physiostarttime := 0,
        signal := [1, 0, 0, 0, 0, 1, 0, 0, 0, 0] }
      (by rfl) (by norm_num)).1
    rw [h]
    have hrangeten : List.range 10 = [0, 1, 2, 3, 4, 5, 6, 7, 8, 9] := rfl
    norm_num [trigger_times, hrangeten, List.filterMap_cons]
  · exact get_trigger_timing_spec.1 _ (by rfl)

/-! ### `save_to_bids` signal grouping (spec section 4.5) -/

/-- Modelled from the spec: the grouping key of a signal, the pair
(sampling rate, start time). -/
def skey (s : physiosignal) : ℚ × ℚ :=
  (s.samples_per_second, s.physiostarttime)

/-- Modelled from the spec: the distinct grouping keys in order of first
appearance in the signal list; `seen` accumulates the keys already
emitted. -/
def groupKeys : List (ℚ × ℚ) → List physiosignal → List (ℚ × ℚ)
  | _, [] => []
  | seen, s :: rest =>
    if skey s ∈ seen then groupKeys seen rest
    else skey s :: groupKeys (skey s :: seen) rest

/-- The label used in a `_recording-<label>` qualifier: the label of the
group's representative (first) signal. -/
def recordingLabel : List physiosignal → String
  | [] => ""
  | s :: _ => s.label

/-- Modelled from the spec: the file-name stem of the i-th exported group
(each stem names the `<stem>.json` / `<stem>.tsv.gz` pair): the first
group keeps the unqualified `_physio` name, every later group carries the
`_recording-<label>` qualifier of its representative signal. -/
def groupName (pfx : String) (idx : ℕ) (grp : List physiosignal) : String :=
  if idx = 0 then pfx ++ "_physio"
  else pfx ++ "_recording-" ++ recordingLabel grp ++ "_physio"

/-- Modelled from the spec: `save_to_bids` partitions the signals into
maximal groups sharing (rate, start) and writes one name/group pair per
group, in order of first appearance. -/
def save_to_bids (pfx : String) (pd : physiodata) : List (String × List physiosignal) :=
  (groupKeys [] pd.signals).enum.map
    (fun ik =>
      (groupName pfx ik.1 (pd.signals.filter (fun s => decide (skey s = ik.2))),
       pd.signals.filter (fun s => decide (skey s = ik.2))))

theorem groupKeys_all_seen (l : List physiosignal) (seen : List (ℚ × ℚ))
    (h : ∀ s ∈ l, skey s ∈ seen) : groupKeys seen l = [] := by
  induction l with
  | nil => rfl
  | cons s rest ih =>
    simp only [groupKeys, if_pos (h s (List.mem_cons_self s rest))]
    exact ih fun x hx => h x (List.mem_cons_of_mem s hx)

theorem groupKeys_append_seen (l rest : List physiosignal) (seen : List (ℚ × ℚ))
    (h : ∀ s ∈ l, skey s ∈ seen) :
    groupKeys seen (l ++ rest) = groupKeys seen rest := by
  induction l with
  | nil => rfl
  | cons s L ih =>
    simp only [List.cons_append, groupKeys, if_pos (h s (List.mem_cons_self s L))]
    exact ih fun x hx => h x (List.mem_cons_of_mem s hx)

theorem groupKeys_const (k : ℚ × ℚ) (l : List physiosignal) (hne : l ≠ [])
    (h : ∀ s ∈ l, skey s = k) : groupKeys [] l = [k] := by
  cases l with
  | nil => exact absurd rfl hne
  | cons s rest =>
    have hs : skey s = k := h s (List.mem_cons_self s rest)
    simp only [groupKeys, List.not_mem_nil, if_false]
    have hrest : groupKeys [skey s] rest = [] := by
      apply groupKeys_all_seen
      intro x hx
      rw [h x (List.mem_cons_of_mem s hx), hs]
      exact List.mem_singleton.mpr rfl
    rw [hrest, hs]

/-- Claim C4, amended: a `physiodata` whose signals all share one
(rate, start) key exports exactly one pair, with the unqualified
`<prefix>_physio` name; after changing the rate of exactly one signal
that is NOT the first one, it exports exactly two pairs: the group of the
unchanged signals keeps the unqualified name and the changed signal's
group carries `_recording-<label>` with that signal's own label.  (When
the FIRST signal is the one changed, its singleton group is encountered
first and keeps the unqualified name, and the qualifier instead carries
the label of the first unchanged signal — see the counterexample.) -/
theorem save_to_bids_grouping_amended :
    (∀ (pfx : String) (pd : physiodata) (k : ℚ × ℚ), pd.signals ≠ [] →
      (∀ s ∈ pd.signals, skey s = k) →
      save_to_bids pfx pd = [(pfx ++ "_physio", pd.signals)]) ∧
    (∀ (pfx : String) (A B : List physiosignal) (sj : physiosignal) (k kj : ℚ × ℚ),
      A ≠ [] → kj ≠ k →
      (∀ s ∈ A, skey s = k) → (∀ s ∈ B, skey s = k) → skey sj = kj →
      save_to_bids pfx { signals := A ++ sj :: B }
        = [(pfx ++ "_physio", A ++ B),
           (pfx ++ "_recording-" ++ sj.label ++ "_physio", [sj])]) := by
  constructor
  · intro pfx pd k hne h
    have hkeys : groupKeys [] pd.signals = [k] := groupKeys_const k pd.signals hne h
    have hfilter : pd.signals.filter (fun s => decide (skey s = k)) = pd.signals :=
      List.filter_eq_self.mpr fun s hs => decide_eq_true (h s hs)
    rw [save_to_bids, hkeys]
    simp only [List.enum, List.enumFrom, List.map_cons, List.map_nil, hfilter]
    rw [groupName, if_pos rfl]
  · intro pfx A B sj k kj hA hkj hAk hBk hsj
    have hkeys : groupKeys [] (A ++ sj :: B) = [k, kj] := by
      cases A with
      | nil => exact absurd rfl hA
      | cons a A2 =>
        have ha : skey a = k := hAk a (List.mem_cons_self a A2)
        simp only [List.cons_append, groupKeys, List.not_mem_nil, if_false,
          List.append_eq]
        rw [groupKeys_append_seen A2 (sj :: B) [skey a]
          (fun x hx => by
            rw [hAk x (List.mem_cons_of_mem a hx), ← ha]
            exact List.mem_singleton.mpr rfl)]
        have hsjnot : skey sj ∉ [skey a] := by
          rw [hsj, ha]
          simp only [List.mem_singleton]
          exact hkj
        simp only [groupKeys, if_neg hsjnot]
        rw [groupKeys_all_seen B (skey sj :: [skey a])
          (fun x hx => by
            rw [hBk x hx, ← ha]
            exact List.mem_cons_of_mem (skey sj) (List.mem_singleton.mpr rfl))]
        rw [ha, hsj]
    have hfk : (A ++ sj :: B).filter (fun s => decide (skey s = k)) = A ++ B := by
      rw [List.filter_append]
      have h1 : A.filter (fun s => decide (skey s = k)) = A :=
        List.filter_eq_self.mpr fun s hs => decide_eq_true (hAk s hs)
      have h2 : (sj :: B).filter (fun s => decide (skey s = k)) = B := by
        have hsjf : decide (skey sj = k) = false := by
          rw [hsj]
          exact decide_eq_false hkj
        rw [List.filter_cons, if_neg (by rw [hsjf]; simp)]
        exact List.filter_eq_self.mpr fun s hs => decide_eq_true (hBk s hs)
      rw [h1, h2]
    have hfkj : (A ++ sj :: B).filter (fun s => decide (skey s = kj)) = [sj] := by
      rw [List.filter_append]
      have h1 : A.filter (fun s => decide (skey s = kj)) = [] := by
        apply List.filter_eq_nil.mpr
        intro s hs
        rw [hAk s hs]
        simp only [decide_eq_true_eq]
        exact fun hc => hkj hc.symm
      have h2 : (sj :: B).filter (fun s => decide (skey s = kj)) = [sj] := by
        have hsjf : decide (skey sj = kj) = true := decide_eq_true hsj
        rw [List.filter_cons, if_pos hsjf]
        have : B.filter (fun s => decide (skey s = kj)) = [] := by
          apply List.filter_eq_nil.mpr
          intro s hs
          rw [hBk s hs]
          simp only [decide_eq_true_eq]
          exact fun hc => hkj hc.symm
        rw [this]
      rw [h1, h2]
      rfl
    rw [save_to_bids]
    simp only [hkeys, List.enum, List.enumFrom, List.map_cons, List.map_nil]
    rw [hfk, hfkj]
    rw [groupName, if_pos rfl]
    norm_num [groupName, recordingLabel]

/-- Counterexample to claim C4 as stated: starting from three signals
sharing (rate 1, start 0) and changing the FIRST signal's rate to 2, the
export still produces two pairs, but the qualified name carries the label
of the second signal (the representative of the unchanged group), not the
changed signal's own label "signal1", and the changed signal's singleton
group is the one keeping the unqualified name. -/
theorem save_to_bids_first_signal_counterexample :
    (save_to_bids "foo"
        { signals :=
            [{ label := "signal1", samples_per_second := 2, physiostarttime := 0,
               signal := [0] },
             { label := "signal2", samples_per_second := 1, physiostarttime := 0,
               signal := [0] },
             { label := "signal3", samples_per_second := 1, physiostarttime := 0,
               signal := [0] }] }).map Prod.fst
      = ["foo_physio", "foo_recording-signal2_physio"] ∧
    ("foo_recording-signal2_physio" : String) ≠ "foo_recording-signal1_physio" := by
  constructor
  · rfl
  · decide

/-- Concrete instantiation of `save_to_bids_grouping_amended` on the test
scenario: three identical-key signals give one pair; raising the LAST
signal's rate gives two pairs, the second qualified with that signal's
label. -/
theorem save_to_bids_grouping_amended_witness :
    save_to_bids "foo"
        { signals :=
            [{ label := "signal1", samples_per_second := 1, physiostarttime := 0,
               signal := [0] },
             { label := "signal2", samples_per_second := 1, physiostarttime := 0,
               signal := [0] },
             { label := "signal3", samples_per_second := 1, physiostarttime := 0,
               signal := [0] }] }
      = [("foo_physio",
          [{ label := "signal1", samples_per_second := 1, physiostarttime := 0,
             signal := [0] },
           { label := "signal2", samples_per_second := 1, physiostarttime := 0,
             signal := [0] },
           { label := "signal3", samples_per_second := 1, physiostarttime := 0,
             signal := [0] }])] ∧
    save_to_bids "foo"
        { signals :=
            [{ label := "signal1", samples_per_second := 1, physiostarttime := 0,
               signal := [0] },
             { label := "signal2", samples_per_second := 1, physiostarttime := 0,
               signal := [0] },
             { label := "signal3", samples_per_second := 2, physiostarttime := 0,
               signal := [0] }] }
      = [("foo_physio",
          [{ label := "signal1", samples_per_second := 1, physiostarttime := 0,
             signal := [0] },
           { label := "signal2", samples_per_second := 1, physiostarttime := 0,
             signal := [0] }]),
         ("foo_recording-signal3_physio",
          [{ label := "signal3", samples_per_second := 2, physiostarttime := 0,
             signal := [0] }])] := by
  constructor
  · exact save_to_bids_grouping_amended.1 "foo" _ (1, 0) (by decide) (by decide)
  · exact save_to_bids_grouping_amended.2 "foo"
      [{ label := "signal1", samples_per_second := 1, physiostarttime := 0, signal := [0] },
       { label := "signal2", samples_per_second := 1, physiostarttime := 0, signal := [0] }]
      []
      { label := "signal3", samples_per_second := 2, physiostarttime := 0, signal := [0] }
      (1, 0) (2, 0) (by decide) (by decide) (by decide) (by decide) (by decide)

end Bidsphysio
